import Mathlib

/-!
Verification of the `hud_camera` repository: a shallow embedding of the
camera/OLED display driver (`src/Camera/cam_driver.c`, `src/Camera/capture.c`,
`src/OLED_1in5_rgb_test.c`) together with proofs about its behaviour.

Machine integers are modelled as `Nat`/`Int`; byte buffers as `Nat → Nat`
functions or `List Nat`; the POSIX read stream as a function from call
index to the number of bytes delivered by that call.
-/

namespace HudCamera

/-! ## Display geometry (cam_driver.h)

`DISPLAY_WIDTH = 128`, `DISPLAY_HEIGHT = 128`; a YUV420 frame is
`W*H*3/2` bytes, the RGB565 display buffer `W*H*2` bytes. -/

def W : Nat := 128

def H : Nat := 128

/-- YUV420 frame size in bytes: `OLED_WIDTH * OLED_HEIGHT * 3 / 2`. -/
def frameSize : Nat := W * H * 3 / 2

/-! ## ColorConverter (cam_driver.c, `yuv420_to_rgb`, lines 186-213) -/

/-- The C arithmetic right shift by 8 on a (possibly negative) `int`,
as produced by gcc on the target: floor division by 256. -/
def asr8 (x : Int) : Int := Int.fdiv x 256

/-- The saturating clamp to [0,255] from `yuv420_to_rgb`:
`(t < 0) ? 0 : ((t > 255) ? 255 : t)`. -/
def clamp8 (x : Int) : Int := if x < 0 then 0 else if 255 < x then 255 else x

/-- `yuv420_to_rgb` (cam_driver.c lines 186-213): fixed-point YUV → RGB
with clamping; the results are stored through `uint8_t*` out-parameters,
modelled by `Int.toNat` after the clamp. -/
def yuv420_to_rgb (y u v : Nat) : Nat × Nat × Nat :=
  let c : Int := (y : Int) - 16
  let d : Int := (u : Int) - 128
  let e : Int := (v : Int) - 128
  let r_temp : Int := asr8 (298 * c + 409 * e + 128)
  let g_temp : Int := asr8 (298 * c - 100 * d - 208 * e + 128)
  let b_temp : Int := asr8 (298 * c + 516 * d + 128)
  ((clamp8 r_temp).toNat, (clamp8 g_temp).toNat, (clamp8 b_temp).toNat)

/-- RGB565 packing from `display_camera_frame` (cam_driver.c line 641):
`((r & 0xF8) << 8) | ((g & 0xFC) << 3) | (b >> 3)`. -/
def rgb565 (r g b : Nat) : Nat :=
  ((r &&& 0xF8) <<< 8) ||| ((g &&& 0xFC) <<< 3) ||| (b >>> 3)

lemma clamp8_nonneg (x : Int) : 0 ≤ clamp8 x := by
  unfold clamp8; split <;> [omega; (split <;> omega)]

lemma clamp8_le (x : Int) : clamp8 x ≤ 255 := by
  unfold clamp8; split <;> [omega; (split <;> omega)]

lemma yuv420_to_rgb_le (y u v : Nat) :
    (yuv420_to_rgb y u v).1 ≤ 255 ∧ (yuv420_to_rgb y u v).2.1 ≤ 255 ∧
      (yuv420_to_rgb y u v).2.2 ≤ 255 := by
  unfold yuv420_to_rgb
  refine ⟨?_, ?_, ?_⟩ <;>
    simpa using Int.toNat_le.mpr (le_trans (clamp8_le _) (by norm_num))

/-! ## ButtonDebouncer (OLED_1in5_rgb_test.c, `debounceButton`, lines 130-151)

The GPIO pin is modelled by the sequence of values successive
`lgGpioRead` calls return: `reads : Nat → Int` indexed by call count. -/

/-- The body of the sampling loop of `debounceButton`.  State: remaining
iterations, `lastState`, `count`, index of the next `lgGpioRead` call.
A mismatching sample resets `count` to 0 and refreshes `lastState`
with a further read (the code calls `lgGpioRead` again in the `else`). -/
def debounceLoop (reads : Nat → Int) :
    Nat → Int → Nat → Nat → Int × Nat
  | 0, lastState, count, _ => (lastState, count)
  | n + 1, lastState, count, idx =>
      if reads idx = lastState then
        debounceLoop reads n lastState (count + 1) (idx + 1)
      else
        debounceLoop reads n (reads (idx + 1)) 0 (idx + 2)

/-- `debounceButton` (OLED_1in5_rgb_test.c lines 130-151): read the pin,
sample 10 more times at 1 ms intervals, return the level if all 10
samples agreed (`count >= 10`), else `-1`. -/
def debounceButton (reads : Nat → Int) : Int :=
  let r := debounceLoop reads 10 (reads 0) 0 1
  if 10 ≤ r.2 then r.1 else -1

lemma debounceLoop_count_le (reads : Nat → Int) :
    ∀ n ls c idx, (debounceLoop reads n ls c idx).2 ≤ c + n := by
  intro n
  induction n with
  | zero => intro ls c idx; simp [debounceLoop]
  | succ n ih =>
    intro ls c idx
    unfold debounceLoop
    split
    · exact le_trans (ih ls (c + 1) (idx + 1)) (by omega)
    · exact le_trans (ih (reads (idx + 1)) 0 (idx + 2)) (by omega)

lemma debounceLoop_count_max (reads : Nat → Int) :
    ∀ n ls c idx, (debounceLoop reads n ls c idx).2 = c + n →
      (debounceLoop reads n ls c idx).1 = ls ∧
        ∀ j, j < n → reads (idx + j) = ls := by
  intro n
  induction n with
  | zero => intro ls c idx _; exact ⟨by simp [debounceLoop], by omega⟩
  | succ n ih =>
    intro ls c idx h
    rw [debounceLoop] at h ⊢
    by_cases hm : reads idx = ls
    · rw [if_pos hm] at h ⊢
      obtain ⟨h1, h2⟩ := ih ls (c + 1) (idx + 1) (by omega)
      refine ⟨h1, ?_⟩
      intro j hj
      cases j with
      | zero => simpa using hm
      | succ j =>
        have := h2 j (by omega)
        simpa [Nat.add_comm, Nat.add_assoc, Nat.add_left_comm] using this
    · rw [if_neg hm] at h
      have := debounceLoop_count_le reads n (reads (idx + 1)) 0 (idx + 2)
      omega

lemma debounceLoop_all_match (reads : Nat → Int) :
    ∀ n ls c idx, (∀ j, j < n → reads (idx + j) = ls) →
      debounceLoop reads n ls c idx = (ls, c + n) := by
  intro n
  induction n with
  | zero => intro ls c idx _; simp [debounceLoop]
  | succ n ih =>
    intro ls c idx hall
    rw [debounceLoop]
    have h0 : reads idx = ls := by simpa using hall 0 (by omega)
    rw [if_pos h0]
    have := ih ls (c + 1) (idx + 1)
      (fun j hj => by
        have := hall (j + 1) (by omega)
        simpa [Nat.add_comm, Nat.add_assoc, Nat.add_left_comm] using this)
    rw [this]; congr 1; omega

/-! ## Frame-to-buffer pass (cam_driver.c, `display_camera_frame`, lines 618-646)

The input frame and the display buffer are modelled as `Nat → Nat`
(byte offset to byte value).  The conversion loop iterates rows then
columns and, for each pixel, writes the two RGB565 bytes big-endian at
offset `(row*W+col)*2` into the current OLED buffer. -/

/-- The RGB565 colour computed for pixel `(row, col)` in the loop body:
luma from `y_plane[row*W+col]`, chroma from
`u_plane[(row/2)*(W/2)+col/2]` / `v_plane[...]` where `u_plane` starts
at offset `W*H` and `v_plane` at `W*H + W*H/4` of the frame. -/
def pixelColor (frame : Nat → Nat) (row col : Nat) : Nat :=
  let y_index := row * W + col
  let uv_index := (row / 2) * (W / 2) + col / 2
  let rgb := yuv420_to_rgb (frame y_index) (frame (W * H + uv_index))
    (frame (W * H + W * H / 4 + uv_index))
  rgb565 rgb.1 rgb.2.1 rgb.2.2

/-- One loop-body execution: store the high byte of the colour at
`pos = (row*W+col)*2` and the low byte at `pos+1`. -/
def writePixel (frame : Nat → Nat) (buf : Nat → Nat) (row col : Nat) :
    Nat → Nat :=
  fun pos =>
    if pos = (row * W + col) * 2 then (pixelColor frame row col >>> 8) &&& 0xFF
    else if pos = (row * W + col) * 2 + 1 then pixelColor frame row col &&& 0xFF
    else buf pos

/-- Sequential execution of the loop body over a list of `(row, col)`
pairs, threading the buffer state. -/
def paintPixels (frame : Nat → Nat) : (Nat → Nat) → List (Nat × Nat) → Nat → Nat
  | buf, [] => buf
  | buf, (r, c) :: rest => paintPixels frame (writePixel frame buf r c) rest

/-- The row-major iteration order of the nested `for` loops:
`row` from 0 to `H-1`, inner `col` from 0 to `W-1`. -/
def rowMajor : List (Nat × Nat) :=
  (List.range H).flatMap (fun r => (List.range W).map (fun c => (r, c)))

/-- The conversion pass of `display_camera_frame` acting on the current
OLED buffer `buf`: frames smaller than `W*H*3/2` bytes are rejected
(buffer unchanged), otherwise every pixel is converted and stored. -/
def display_camera_frame (frame : Nat → Nat) (frame_size : Nat)
    (buf : Nat → Nat) : Nat → Nat :=
  if frame_size < W * H * 3 / 2 then buf
  else paintPixels frame buf rowMajor

lemma paintPixels_preserve (frame : Nat → Nat) (pos : Nat) :
    ∀ L buf, (∀ rc ∈ L, pos ≠ (rc.1 * W + rc.2) * 2 ∧
        pos ≠ (rc.1 * W + rc.2) * 2 + 1) →
      paintPixels frame buf L pos = buf pos := by
  intro L
  induction L with
  | nil => intro buf _; rfl
  | cons hd tl ih =>
    intro buf hL
    obtain ⟨r, c⟩ := hd
    have hhd := hL (r, c) (by simp)
    rw [paintPixels, ih _ (fun rc hrc => hL rc (by simp [hrc]))]
    simp only [writePixel]
    rw [if_neg hhd.1, if_neg hhd.2]

lemma paintPixels_hit (frame : Nat → Nat) (row col : Nat) :
    ∀ L buf, (row, col) ∈ L →
      (∀ rc ∈ L, rc.1 * W + rc.2 = row * W + col → rc = (row, col)) →
      paintPixels frame buf L ((row * W + col) * 2) =
          (pixelColor frame row col >>> 8) &&& 0xFF ∧
        paintPixels frame buf L ((row * W + col) * 2 + 1) =
          pixelColor frame row col &&& 0xFF := by
  intro L
  induction L with
  | nil => intro buf hmem _; simp at hmem
  | cons hd tl ih =>
    intro buf hmem huniq
    obtain ⟨r, c⟩ := hd
    by_cases htl : (row, col) ∈ tl
    · exact ih _ htl (fun rc hrc => huniq rc (by simp [hrc]))
    · have hhd : (row, col) = (r, c) := by
        rcases List.mem_cons.mp hmem with h | h
        · exact h
        · exact absurd h htl
      obtain ⟨hr, hc⟩ := Prod.mk.injEq .. ▸ hhd
      subst hr; subst hc
      have hdisj : ∀ rc ∈ tl, ((row * W + col) * 2) ≠ (rc.1 * W + rc.2) * 2 ∧
          ((row * W + col) * 2) ≠ (rc.1 * W + rc.2) * 2 + 1 := by
        intro rc hrc
        constructor
        · intro heq
          have hidx : rc.1 * W + rc.2 = row * W + col := by omega
          exact htl ((huniq rc (by simp [hrc]) hidx) ▸ hrc)
        · omega
      have hdisj1 : ∀ rc ∈ tl, ((row * W + col) * 2 + 1) ≠ (rc.1 * W + rc.2) * 2 ∧
          ((row * W + col) * 2 + 1) ≠ (rc.1 * W + rc.2) * 2 + 1 := by
        intro rc hrc
        constructor
        · omega
        · intro heq
          have hidx : rc.1 * W + rc.2 = row * W + col := by omega
          exact htl ((huniq rc (by simp [hrc]) hidx) ▸ hrc)
      rw [paintPixels, paintPixels_preserve frame _ tl _ hdisj,
        paintPixels_preserve frame _ tl _ hdisj1]
      constructor
      · simp [writePixel]
      · simp [writePixel]

lemma mem_rowMajor (r c : Nat) : (r, c) ∈ rowMajor ↔ r < H ∧ c < W := by
  simp only [rowMajor, List.mem_flatMap, List.mem_map, List.mem_range]
  constructor
  · rintro ⟨a, ha, b, hb, hab⟩
    obtain ⟨h1, h2⟩ := Prod.mk.injEq .. ▸ hab
    subst h1; subst h2; exact ⟨ha, hb⟩
  · rintro ⟨hr, hc⟩
    exact ⟨r, hr, c, hc, rfl⟩

lemma rowMajor_index_uniq (row col : Nat) (hc : col < W) :
    ∀ rc ∈ rowMajor, rc.1 * W + rc.2 = row * W + col → rc = (row, col) := by
  rintro ⟨a, b⟩ hmem heq
  have hb : b < W := ((mem_rowMajor a b).mp hmem).2
  have hW : W = 128 := rfl
  rw [hW] at heq hb
  rw [hW] at hc
  have : a = row ∧ b = col := by omega
  simp [this.1, this.2]

/-! ## StreamSource: the named-pipe reader (cam_driver.c, `pipe_thread_func`)

The pipe is modelled by `reads : Nat → Nat`, the number of bytes each
successive `read(2)` call delivers (`0` = writer closed; a call never
delivers more than requested, modelled by capping at the remaining
byte count). -/

/-- The frame-accumulation loop
`while (total_read < frame_size) { bytes_read = read(...); ... }`
(cam_driver.c lines 463-484 and 508-528).  `fuel` bounds the
iterations; `fs` fuel always suffices since every successful read
delivers at least one byte.  Returns the accumulated byte count and
the index of the next unused `read` call. -/
def readFull (reads : Nat → Nat) : Nat → Nat → Nat → Nat → Nat × Nat
  | 0, idx, total, _ => (total, idx)
  | f + 1, idx, total, fs =>
      if fs ≤ total then (total, idx)
      else if reads idx = 0 then (total, idx + 1)
      else readFull reads f (idx + 1) (total + min (reads idx) (fs - total)) fs

/-- Accumulate one frame starting at read call `idx`. -/
def readFrame (reads : Nat → Nat) (idx fs : Nat) : Nat × Nat :=
  readFull reads fs idx 0 fs

/-- The steady-state double-buffered loop of `pipe_thread_func`
(lines 498-554): per iteration, display the active buffer (recording
the number of bytes accumulated in it), then fill the other buffer;
break on an incomplete frame.  `fuel` models the number of iterations
before an external `stop_display` clears `display_active`.  Returns
the accumulated-byte counts of the buffers passed to
`display_camera_frame`, in order. -/
def pipeSteadyDisplays (reads : Nat → Nat) (fs : Nat) :
    Nat → Nat → Nat → List Nat
  | 0, _, _ => []
  | fuel + 1, idx, activeFill =>
      activeFill ::
        (let r := readFrame reads idx fs
         if r.1 < fs then [] else pipeSteadyDisplays reads fs fuel r.2 r.1)

/-- All `display_camera_frame` calls made by one run of
`pipe_thread_func` (lines 462-554), each recorded as the byte count
accumulated in the buffer passed.  If the very first frame is
incomplete the worker exits before the steady-state loop (lines
486-494) and no display call happens. -/
def pipeDisplays (reads : Nat → Nat) (fs fuel : Nat) : List Nat :=
  let r0 := readFrame reads 0 fs
  if r0.1 < fs then [] else pipeSteadyDisplays reads fs fuel r0.2 r0.1

/-- Exit paths of `pipe_thread_func`. -/
inductive ExitPath where
  | openFail
  | allocFail0
  | allocFail1
  | firstFrameShort
  | midStreamShort
  | externalStop
deriving DecidableEq

/-- Observable state when the `pipe_thread_func` worker returns. -/
structure PipeExit where
  exitPath : ExitPath
  /-- Value of the global `display_active` flag at worker exit. -/
  displayActive : Bool
  /-- Both `frame_buffers` freed (vacuously true if never allocated). -/
  frameBuffersFreed : Bool
  /-- Number of `display_camera_frame` calls made. -/
  displays : Nat
deriving DecidableEq

/-- Steady-state loop of `pipe_thread_func`, tracking the exit state.
On an incomplete mid-stream frame the code `break`s out of the loop
(lines 531-535) and runs the cleanup below it, which frees both frame
buffers and closes the pipe but never clears `display_active`. -/
def pipeSteadyExit (reads : Nat → Nat) (fs : Nat) :
    Nat → Nat → Nat → PipeExit
  | 0, _, d => ⟨ExitPath.externalStop, false, true, d⟩
  | fuel + 1, idx, d =>
      let r := readFrame reads idx fs
      if r.1 < fs then ⟨ExitPath.midStreamShort, true, true, d + 1⟩
      else pipeSteadyExit reads fs fuel r.2 (d + 1)

/-- One full run of `pipe_thread_func` (cam_driver.c lines 400-569):
pipe open, allocation of the two frame buffers, first-frame fill, then
the steady loop.  `openOk`/`alloc0Ok`/`alloc1Ok` model success of
`open(2)` and the two `malloc`s. -/
def pipe_thread_func (openOk alloc0Ok alloc1Ok : Bool)
    (reads : Nat → Nat) (fs fuel : Nat) : PipeExit :=
  if !openOk then ⟨ExitPath.openFail, false, true, 0⟩
  else if !alloc0Ok then ⟨ExitPath.allocFail0, false, true, 0⟩
  else if !alloc1Ok then ⟨ExitPath.allocFail1, false, true, 0⟩
  else
    let r0 := readFrame reads 0 fs
    if r0.1 < fs then ⟨ExitPath.firstFrameShort, false, true, 0⟩
    else pipeSteadyExit reads fs fuel r0.2 0

/-! ## FileLoopSource (cam_driver.c, `display_thread_func`, lines 271-336)

The video file is a `List Nat` of bytes; `fread` at position `pos`
returns `(file.drop pos).take n`; a short read rewinds (position 0)
and the loop `continue`s without displaying the partial buffer. -/

/-- The playback loop of `display_thread_func`: per iteration, read one
frame-sized chunk; on a short read `rewind` and retry, otherwise
display the chunk.  Returns the frames passed to
`display_camera_frame`, in order.  `fuel` bounds the iterations (the
loop runs until `display_active` is cleared externally). -/
def fileLoopDisplays (file : List Nat) (fs : Nat) : Nat → Nat → List (List Nat)
  | 0, _ => []
  | fuel + 1, pos =>
      let chunk := (file.drop pos).take fs
      if chunk.length < fs then fileLoopDisplays file fs fuel 0
      else chunk :: fileLoopDisplays file fs fuel (pos + fs)

/-! ## BufferPool: the two OLED display buffers (cam_driver.c)

`oled_buffers[2]` are global pointers.  `malloc` is modelled as
returning a fresh address (`nextAddr`) and counting allocations. -/

/-- State of the allocator and of the two `oled_buffers` slots. -/
structure PoolState where
  buf0 : Option Nat
  buf1 : Option Nat
  nextAddr : Nat
  allocCount : Nat
  freeCount : Nat
deriving DecidableEq

/-- Initial state of the globals: `oled_buffers = {0, 0}`. -/
def initialPool : PoolState := ⟨none, none, 0, 0, 0⟩

/-- `init_display_buffers` (cam_driver.c lines 140-169), success path:
allocate each buffer only if its slot is still NULL. -/
def init_display_buffers (s : PoolState) : PoolState :=
  let s1 :=
    if s.buf0 = none then
      { s with buf0 := some s.nextAddr, nextAddr := s.nextAddr + 1,
               allocCount := s.allocCount + 1 }
    else s
  if s1.buf1 = none then
    { s1 with buf1 := some s1.nextAddr, nextAddr := s1.nextAddr + 1,
              allocCount := s1.allocCount + 1 }
  else s1

/-- `free_display_buffers` (cam_driver.c lines 695-708): free each
non-NULL slot and reset it to NULL. -/
def free_display_buffers (s : PoolState) : PoolState :=
  let s1 :=
    if s.buf0 = none then s
    else { s with buf0 := none, freeCount := s.freeCount + 1 }
  if s1.buf1 = none then s1
  else { s1 with buf1 := none, freeCount := s1.freeCount + 1 }

/-- The allocation statements at the top of `display_camera_frame`
(cam_driver.c lines 590-600): `oled_buffers[0] = malloc(buffer_size)`
and `oled_buffers[1] = malloc(buffer_size)` are executed
unconditionally on every call, overwriting both slots (success path of
both `malloc`s). -/
def display_camera_frame_alloc (s : PoolState) : PoolState :=
  let s1 := { s with buf0 := some s.nextAddr, nextAddr := s.nextAddr + 1,
                     allocCount := s.allocCount + 1 }
  { s1 with buf1 := some s1.nextAddr, nextAddr := s1.nextAddr + 1,
            allocCount := s1.allocCount + 1 }

/-! ## Session lifecycle (cam_driver.c, `start_video_display`,
`start_realtime_display`, `stop_display`, `is_display_active`) -/

/-- Observable session state: the `display_active` flag, how many
worker threads were ever spawned, and how many `pthread_join`s were
performed by `stop_display`. -/
structure SessionState where
  active : Bool
  spawned : Nat
  joins : Nat
deriving DecidableEq

/-- `start_video_display` (cam_driver.c lines 230-259): refuse if
already active; check the file; set the flag and spawn the worker;
on `pthread_create` failure reset the flag. -/
def start_video_display (s : SessionState) (fileOk threadOk : Bool) :
    Int × SessionState :=
  if s.active then (-1, s)
  else if !fileOk then (-1, s)
  else if !threadOk then (-1, { s with active := false })
  else (0, { s with active := true, spawned := s.spawned + 1 })

/-- How a filesystem path may present itself to `stat`/`S_ISFIFO`. -/
inductive PathState where
  | absent
  | fifo
  | nonFifo
deriving DecidableEq

/-- Result of a transport-channel setup attempt. -/
structure SetupResult where
  ret : Int
  workerSpawned : Bool
  path : PathState
  /-- Mode passed to `mkfifo` when the path was created. -/
  createdMode : Option Nat
deriving DecidableEq

/-- `start_realtime_display` (cam_driver.c lines 353-385): refuse if
active; if `stat` fails (path absent) create the FIFO with mode 0666;
otherwise proceed without checking the path kind; then spawn the
worker. -/
def start_realtime_display (active : Bool) (p : PathState)
    (mkfifoOk threadOk : Bool) : SetupResult :=
  if active then ⟨-1, false, p, none⟩
  else if p = PathState.absent then
    if !mkfifoOk then ⟨-1, false, p, none⟩
    else if !threadOk then ⟨-1, false, PathState.fifo, some 0o666⟩
    else ⟨0, true, PathState.fifo, some 0o666⟩
  else if !threadOk then ⟨-1, false, p, none⟩
  else ⟨0, true, p, none⟩

/-- The transport-channel setup in `capture_video` (capture.c lines
186-214), run before `start_realtime_display`: create the FIFO with
mode 0666 if the path is absent, proceed if it exists and is a FIFO,
fail with -1 (and never reach `start_realtime_display`) if it exists
but is not a FIFO. -/
def capture_video_setup (p : PathState) (mkfifoOk threadOk : Bool) :
    SetupResult :=
  if p = PathState.absent then
    if !mkfifoOk then ⟨-1, false, p, none⟩
    else
      let r := start_realtime_display false PathState.fifo true threadOk
      { r with createdMode := some 0o666 }
  else if p = PathState.nonFifo then ⟨-1, false, p, none⟩
  else start_realtime_display false p mkfifoOk threadOk

/-- `stop_display` (cam_driver.c lines 732-739): if the flag is set,
clear it and join the worker; otherwise do nothing. -/
def stop_display (s : SessionState) : SessionState :=
  if s.active then { s with active := false, joins := s.joins + 1 }
  else s

/-- `is_display_active` (cam_driver.c lines 720-723). -/
def is_display_active (s : SessionState) : Bool := s.active

/-! ## Button_Lock (OLED_1in5_rgb_test.c, lines 87-127)

`Button_Lock` is a non-void function with a reachable path that ends
without a `return` statement, and a path that reads the uninitialized
local `temp`; both are modelled as `none` (no defined result), as is
non-termination (fuel exhaustion while the pin stays high). -/

/-- The `while (temp == 1)` polling loop of `Button_Lock` together
with the code after it: on exit with `check2 == 1` return 1; on exit
with `check2 == 0` control falls to the end of the non-void function
(undefined result). -/
def buttonLockLoop (reads : Nat → Int) :
    Nat → Nat → Int → Bool → Option Int
  | 0, _, temp, check2 =>
      if temp = 1 then none else if check2 then some 1 else none
  | fuel + 1, idx, temp, check2 =>
      if temp = 1 then buttonLockLoop reads fuel (idx + 1) (reads idx) true
      else if check2 then some 1 else none

/-- `Button_Lock` (OLED_1in5_rgb_test.c lines 87-127): the `switch`
starts in `IDLE` and falls through into `LOCKED`.  If the initial
`lgGpioRead` returns 1, `check = 1` and `temp` is loaded from a second
read; otherwise `temp` is read uninitialized and the function can end
without returning — no defined result (`none`). -/
def Button_Lock (reads : Nat → Int) (fuel : Nat) : Option Int :=
  if reads 0 = 1 then buttonLockLoop reads fuel 2 (reads 1) false
  else none

/-! ## Claim theorems -/

/-- C1: for every input (y,u,v) with each component in [0,255],
`yuv420_to_rgb` returns components r,g,b each in [0,255], computed by
the fixed-point transform c=y-16, d=u-128, e=v-128 with the three
clamped `>>8` linear forms (embedded in the definition of
`yuv420_to_rgb`, which is a pure function and hence deterministic);
in particular convert(235,128,128) = (255,255,255) and
convert(16,128,128) = (0,0,0). -/
theorem c1_yuv420_to_rgb_range_and_vectors (y u v : Nat)
    (hy : y ≤ 255) (hu : u ≤ 255) (hv : v ≤ 255) :
    ((yuv420_to_rgb y u v).1 ≤ 255 ∧ (yuv420_to_rgb y u v).2.1 ≤ 255 ∧
      (yuv420_to_rgb y u v).2.2 ≤ 255) ∧
    yuv420_to_rgb 235 128 128 = (255, 255, 255) ∧
    yuv420_to_rgb 16 128 128 = (0, 0, 0) :=
  ⟨yuv420_to_rgb_le y u v, by decide, by decide⟩

/-- Witness for C1 at (y,u,v) = (235,128,128). -/
theorem c1_witness :
    (235 ≤ 255 ∧ 128 ≤ 255 ∧ 128 ≤ 255) ∧
      ((yuv420_to_rgb 235 128 128).1 ≤ 255 ∧
        (yuv420_to_rgb 235 128 128).2.1 ≤ 255 ∧
        (yuv420_to_rgb 235 128 128).2.2 ≤ 255) :=
  ⟨by decide,
    (c1_yuv420_to_rgb_range_and_vectors 235 128 128 (by decide) (by decide)
      (by decide)).1⟩

/-- C2: over a full `W*H*3/2`-byte YUV420 frame, every output pixel
(row,col) takes its luma sample from index `row*W+col` of the luma
plane and both chroma samples from index `(row/2)*(W/2)+(col/2)` of
the quarter-resolution chroma planes (this is `pixelColor`), and the
resulting `rgb565` value is stored as two bytes big-endian (high byte
first) at offset `(row*W+col)*2` of the display buffer. -/
theorem c2_display_camera_frame_pixel (frame buf : Nat → Nat)
    (row col : Nat) (hr : row < H) (hc : col < W) :
    display_camera_frame frame (W * H * 3 / 2) buf ((row * W + col) * 2) =
        (pixelColor frame row col >>> 8) &&& 0xFF ∧
      display_camera_frame frame (W * H * 3 / 2) buf ((row * W + col) * 2 + 1) =
        pixelColor frame row col &&& 0xFF := by
  have hmem := (mem_rowMajor row col).mpr ⟨hr, hc⟩
  have huniq := rowMajor_index_uniq row col hc
  have h := paintPixels_hit frame row col rowMajor buf hmem huniq
  simpa [display_camera_frame] using h

/-- Witness for C2 at the all-zero frame, pixel (0,0): the computed
RGB565 colour is 0x0420, stored as bytes 0x04 then 0x20. -/
theorem c2_witness :
    (0 < H ∧ 0 < W) ∧
      display_camera_frame (fun _ => 0) (W * H * 3 / 2) (fun _ => 0) 0 = 4 ∧
      display_camera_frame (fun _ => 0) (W * H * 3 / 2) (fun _ => 0) 1 = 32 := by
  have h := c2_display_camera_frame_pixel (fun _ => 0) (fun _ => 0) 0 0
    (by decide) (by decide)
  exact ⟨by decide, h.1.trans (by decide), h.2.trans (by decide)⟩

/-- C3 (code bug): the claim states the two buffer pointers of the pool are
allocated only in `init_display_buffers` and never reallocated during
`display_camera_frame`; the code instead calls `malloc` into both
`oled_buffers` slots on every `display_camera_frame` call
(cam_driver.c lines 590-600).  Evaluated at the failing input (the
first frame of a session right after initialization): one call
performs two further allocations and replaces both pointers. -/
theorem c3_display_camera_frame_reallocates :
    (display_camera_frame_alloc (init_display_buffers initialPool)).allocCount =
        (init_display_buffers initialPool).allocCount + 2 ∧
      (display_camera_frame_alloc (init_display_buffers initialPool)).buf0 ≠
        (init_display_buffers initialPool).buf0 ∧
      (display_camera_frame_alloc (init_display_buffers initialPool)).buf1 ≠
        (init_display_buffers initialPool).buf1 := by decide

/-- C8: `debounceButton` samples the pin for 10 iterations and returns
the initially read level iff every sample in the window agrees with
it; any disagreeing sample forces the return value -1 (Unstable). -/
theorem c8_debounceButton_stable_iff (reads : Nat → Int) :
    debounceButton reads =
      if ∀ i, i < 11 → reads i = reads 0 then reads 0 else -1 := by
  unfold debounceButton
  by_cases h : ∀ i, i < 11 → reads i = reads 0
  · rw [if_pos h]
    have hall : ∀ j, j < 10 → reads (1 + j) = reads 0 :=
      fun j hj => h (1 + j) (by omega)
    rw [debounceLoop_all_match reads 10 (reads 0) 0 1 hall]
    simp
  · rw [if_neg h]
    by_cases hc : 10 ≤ (debounceLoop reads 10 (reads 0) 0 1).2
    · exfalso
      have hle := debounceLoop_count_le reads 10 (reads 0) 0 1
      obtain ⟨-, hall⟩ :=
        debounceLoop_count_max reads 10 (reads 0) 0 1 (by omega)
      apply h
      intro i hi
      cases i with
      | zero => rfl
      | succ i =>
        have := hall i (by omega)
        simpa [Nat.add_comm] using this
    · rw [if_neg hc]

lemma readFull_le (reads : Nat → Nat) (fs : Nat) :
    ∀ f idx total, total ≤ fs → (readFull reads f idx total fs).1 ≤ fs := by
  intro f
  induction f with
  | zero => intro idx total h; simpa [readFull] using h
  | succ f ih =>
    intro idx total h
    rw [readFull]
    split
    · simpa using h
    · split
      · simpa using h
      · exact ih (idx + 1) (total + min (reads idx) (fs - total)) (by omega)

lemma readFrame_le (reads : Nat → Nat) (idx fs : Nat) :
    (readFrame reads idx fs).1 ≤ fs :=
  readFull_le reads fs fs idx 0 (Nat.zero_le fs)

lemma pipeSteadyDisplays_full (reads : Nat → Nat) (fs : Nat) :
    ∀ fuel idx x, x ∈ pipeSteadyDisplays reads fs fuel idx fs → x = fs := by
  intro fuel
  induction fuel with
  | zero => intro idx x hx; simp [pipeSteadyDisplays] at hx
  | succ fuel ih =>
    intro idx x hx
    rw [pipeSteadyDisplays] at hx
    rcases List.mem_cons.mp hx with h | h
    · exact h
    · by_cases hshort : (readFrame reads idx fs).1 < fs
      · rw [if_pos hshort] at h; simp at h
      · rw [if_neg hshort] at h
        have heq : (readFrame reads idx fs).1 = fs :=
          le_antisymm (readFrame_le reads idx fs) (by omega)
        rw [heq] at h
        exact ih _ x h

/-- C4: in every run of the named-pipe reader, a buffer holding fewer
than `W*H*3/2` accumulated bytes is never passed to
`display_camera_frame` (every recorded display carries exactly
`frameSize` bytes), and if the very first frame is not fully received
the worker aborts before entering the steady-state loop (no display at
all). -/
theorem c4_pipe_no_short_display (reads : Nat → Nat) (fuel : Nat) :
    (∀ x ∈ pipeDisplays reads frameSize fuel, x = frameSize) ∧
      ((readFrame reads 0 frameSize).1 < frameSize →
        pipeDisplays reads frameSize fuel = []) := by
  constructor
  · intro x hx
    rw [pipeDisplays] at hx
    by_cases hshort : (readFrame reads 0 frameSize).1 < frameSize
    · rw [if_pos hshort] at hx; simp at hx
    · rw [if_neg hshort] at hx
      have heq : (readFrame reads 0 frameSize).1 = frameSize :=
        le_antisymm (readFrame_le reads 0 frameSize) (by omega)
      rw [heq] at hx
      exact pipeSteadyDisplays_full reads frameSize fuel _ x hx
  · intro hshort
    rw [pipeDisplays, if_pos hshort]

/-- Witness for C4: a producer that always delivers full frames yields
a display of exactly `frameSize` bytes; a producer that closes
immediately yields no display at all. -/
theorem c4_witness :
    (frameSize ∈ pipeDisplays (fun _ => frameSize) frameSize 1 ∧
        frameSize = frameSize) ∧
      ((readFrame (fun _ => 0) 0 frameSize).1 < frameSize ∧
        pipeDisplays (fun _ => 0) frameSize 1 = []) := by
  constructor
  · have hm : frameSize ∈ pipeDisplays (fun _ => frameSize) frameSize 1 := by
      decide
    exact ⟨hm, (c4_pipe_no_short_display (fun _ => frameSize) 1).1
      frameSize hm⟩
  · have h2 : (readFrame (fun _ => 0) 0 frameSize).1 < frameSize := by decide
    exact ⟨h2, (c4_pipe_no_short_display (fun _ => 0) 1).2 h2⟩

/-- C5 (code bug): the claim states that on every fatal condition the
display-active flag reads 0 once the worker has exited.  On the
mid-stream short-read path (producer closes after the first full
frame) the worker `break`s out, frees its frame buffers and exits —
but never clears `display_active`, which still reads 1 (`true`): the
code contradicts the handling of its own sibling failure paths, all of
which clear the flag. -/
theorem c5_midstream_short_leaves_flag_set :
    pipe_thread_func true true true
        (fun i => if i = 0 then frameSize else 0) frameSize 5 =
      ⟨ExitPath.midStreamShort, true, true, 1⟩ := by decide

lemma length_take_drop (file : List Nat) (p n : Nat) :
    ((file.drop p).take n).length = min n (file.length - p) := by
  simp

lemma fileLoop_frames (file : List Nat) (fs N r : Nat) (hfs : 1 ≤ fs)
    (hN : 1 ≤ N) (hlen : file.length = N * fs + r) (hr : r < fs) :
    ∀ fuel m k, m ≤ N →
      k < (fileLoopDisplays file fs fuel (m * fs)).length →
      (fileLoopDisplays file fs fuel (m * fs)).getD k [] =
        (file.drop (((m + k) % N) * fs)).take fs := by
  intro fuel
  induction fuel with
  | zero => intro m k _ hk; simp [fileLoopDisplays] at hk
  | succ fuel ih =>
    intro m k hm hk
    rw [fileLoopDisplays] at hk ⊢
    by_cases hmN : m < N
    · have hmul : (m + 1) * fs ≤ N * fs := Nat.mul_le_mul_right fs (by omega)
      have hsucc : (m + 1) * fs = m * fs + fs := Nat.succ_mul m fs
      have hfull : ¬ (((file.drop (m * fs)).take fs).length < fs) := by
        rw [length_take_drop]; omega
      rw [if_neg hfull] at hk ⊢
      cases k with
      | zero =>
        have : (m + 0) % N = m := by
          rw [Nat.add_zero]; exact Nat.mod_eq_of_lt hmN
        rw [this]
        simp [List.getD]
      | succ k =>
        have hk2 : k < (fileLoopDisplays file fs fuel ((m + 1) * fs)).length := by
          rw [hsucc]
          simpa using hk
        have := ih (m + 1) k (by omega) hk2
        rw [hsucc] at this
        have hmod : (m + 1 + k) % N = (m + (k + 1)) % N := by
          congr 1; omega
        rw [hmod] at this
        simpa [List.getD] using this
    · have hmN' : N = m := by omega
      subst hmN'
      have hsub : file.length - N * fs = r := by omega
      have hshort : ((file.drop (N * fs)).take fs).length < fs := by
        rw [length_take_drop, hsub]; omega
      rw [if_pos hshort] at hk ⊢
      have hk0 : k < (fileLoopDisplays file fs fuel (0 * fs)).length := by
        simpa using hk
      have := ih 0 k (by omega) hk0
      have hmod : (0 + k) % N = (N + k) % N := by
        rw [Nat.zero_add, Nat.add_mod_left]
      rw [hmod] at this
      simpa using this

/-- C6: the file-loop source reads exactly one frame-sized chunk per
iteration; on a short read (including a zero-byte read at end of file)
it rewinds to the beginning and retries, so playback loops
indefinitely: the k-th frame passed to `display_camera_frame` is,
byte-for-byte, frame `k mod N` of the file (N full frames stored).
In particular after N full frames followed by end-of-file, the next
delivered frame equals the first frame of the file. -/
theorem c6_fileLoop_wraps (file : List Nat) (fs N r fuel k : Nat)
    (hfs : 1 ≤ fs) (hN : 1 ≤ N) (hlen : file.length = N * fs + r)
    (hr : r < fs) (hk : k < (fileLoopDisplays file fs fuel 0).length) :
    (fileLoopDisplays file fs fuel 0).getD k [] =
      (file.drop ((k % N) * fs)).take fs := by
  have hk0 : k < (fileLoopDisplays file fs fuel (0 * fs)).length := by
    simpa using hk
  have := fileLoop_frames file fs N r hfs hN hlen hr fuel 0 k (by omega) hk0
  simpa using this

/-- Witness for C6: a 7-byte file holding three 2-byte frames plus one
trailing byte; after the three stored frames the fourth delivered
frame is the first frame again. -/
theorem c6_witness :
    (1 ≤ 2 ∧ 1 ≤ 3 ∧
      ([10, 11, 20, 21, 30, 31, 99] : List Nat).length = 3 * 2 + 1 ∧
      1 < 2 ∧
      3 < (fileLoopDisplays [10, 11, 20, 21, 30, 31, 99] 2 5 0).length) ∧
    (fileLoopDisplays [10, 11, 20, 21, 30, 31, 99] 2 5 0).getD 3 [] =
      [10, 11] := by
  refine ⟨by decide, ?_⟩
  exact (c6_fileLoop_wraps [10, 11, 20, 21, 30, 31, 99] 2 3 1 5 3 (by decide)
    (by decide) (by decide) (by decide) (by decide)).trans (by decide)

/-- C7: caller misuse is non-fatal: `start_video_display` and
`start_realtime_display` return -1 without spawning a worker or
changing state when a display is already active; `stop_display` while
inactive is a no-op; `stop_display` while active clears the active
flag and joins the worker; stopping twice in a row, or when never
started, leaves the state Inactive. -/
theorem c7_caller_misuse (s : SessionState) (fileOk threadOk mkfifoOk : Bool)
    (p : PathState) :
    start_video_display { s with active := true } fileOk threadOk =
        (-1, { s with active := true }) ∧
      start_realtime_display true p mkfifoOk threadOk = ⟨-1, false, p, none⟩ ∧
      stop_display { s with active := false } = { s with active := false } ∧
      (stop_display { s with active := true }).active = false ∧
      (stop_display { s with active := true }).joins = s.joins + 1 ∧
      stop_display (stop_display s) = stop_display s ∧
      (stop_display (stop_display s)).active = false := by
  refine ⟨?_, ?_, ?_, ?_, ?_, ?_, ?_⟩ <;>
    by_cases h : s.active <;>
      simp [start_video_display, start_realtime_display, stop_display, h]

/-- C9 counterexample: the claim states that when the transport path
exists but is not a FIFO, setup is a fatal error — start fails and no
worker is spawned.  `start_realtime_display` itself never checks the
path kind: with an existing non-FIFO path it returns 0 and spawns the
worker. -/
theorem c9_counterexample_nonfifo_spawns :
    (start_realtime_display false PathState.nonFifo true true).ret = 0 ∧
      (start_realtime_display false PathState.nonFifo true true).workerSpawned =
        true := by decide

/-- C9 (amended): the transport path is created with mode 0666 when
absent and reused without error when it exists and is a FIFO, in both
the setup in `capture_video` and `start_realtime_display`; an existing
non-FIFO path is a fatal setup error (-1, no worker) in
the setup in `capture_video`, but `start_realtime_display` itself performs
no kind check and proceeds to spawn the worker in that case. -/
theorem c9_transport_setup (mkOk tOk : Bool) :
    start_realtime_display false PathState.absent true true =
        ⟨0, true, PathState.fifo, some 0o666⟩ ∧
      start_realtime_display false PathState.fifo true true =
        ⟨0, true, PathState.fifo, none⟩ ∧
      start_realtime_display false PathState.nonFifo true true =
        ⟨0, true, PathState.nonFifo, none⟩ ∧
      capture_video_setup PathState.absent true true =
        ⟨0, true, PathState.fifo, some 0o666⟩ ∧
      capture_video_setup PathState.fifo true true =
        ⟨0, true, PathState.fifo, none⟩ ∧
      capture_video_setup PathState.nonFifo mkOk tOk =
        ⟨-1, false, PathState.nonFifo, none⟩ ∧
      (start_realtime_display false PathState.absent false tOk).workerSpawned =
        false := by
  cases mkOk <;> cases tOk <;> decide

lemma buttonLockLoop_some (reads : Nat → Int) :
    ∀ fuel idx temp c2 v, buttonLockLoop reads fuel idx temp c2 = some v →
      v = 1 ∧ ((temp ≠ 1 ∧ c2 = true) ∨
        (temp = 1 ∧ ∃ k, idx ≤ k ∧ reads k ≠ 1)) := by
  intro fuel
  induction fuel with
  | zero =>
    intro idx temp c2 v h
    rw [buttonLockLoop] at h
    by_cases ht : temp = 1
    · rw [if_pos ht] at h; simp at h
    · rw [if_neg ht] at h
      by_cases hc : c2
      · rw [if_pos hc] at h
        exact ⟨by simpa using h.symm, Or.inl ⟨ht, hc⟩⟩
      · rw [if_neg hc] at h; simp at h
  | succ fuel ih =>
    intro idx temp c2 v h
    rw [buttonLockLoop] at h
    by_cases ht : temp = 1
    · rw [if_pos ht] at h
      obtain ⟨hv, hcase⟩ := ih (idx + 1) (reads idx) true v h
      refine ⟨hv, Or.inr ⟨ht, ?_⟩⟩
      rcases hcase with ⟨hne, -⟩ | ⟨-, k, hk, hne⟩
      · exact ⟨idx, le_refl idx, hne⟩
      · exact ⟨k, by omega, hne⟩
    · rw [if_neg ht] at h
      by_cases hc : c2
      · rw [if_pos hc] at h
        exact ⟨by simpa using h.symm, Or.inl ⟨ht, hc⟩⟩
      · rw [if_neg hc] at h; simp at h

/-- C10: `Button_Lock` returns the defined value 1 only on the
press-then-hold-then-release path: a defined result requires the
initial pin read to be 1, the second read (into `temp`) to be 1, and a
later read of 0; and when the initial pin read is 0 the fall-through
from the IDLE case into the LOCKED case reads the uninitialized local
`temp` and can reach the end of the non-void function without a
`return`, so the call has no defined result (`none`) — and this branch
is reached for every such input. -/
theorem c10_Button_Lock_paths (reads : Nat → Int) (fuel : Nat)
    (hbin : ∀ i, reads i = 0 ∨ reads i = 1) :
    (∀ v, Button_Lock reads fuel = some v →
        v = 1 ∧ reads 0 = 1 ∧ reads 1 = 1 ∧ ∃ k, 2 ≤ k ∧ reads k = 0) ∧
      (reads 0 = 0 → Button_Lock reads fuel = none) := by
  constructor
  · intro v h
    unfold Button_Lock at h
    by_cases h0 : reads 0 = 1
    · rw [if_pos h0] at h
      obtain ⟨hv, hcase⟩ := buttonLockLoop_some reads fuel 2 (reads 1) false v h
      rcases hcase with ⟨-, hfalse⟩ | ⟨h1, k, hk2, hkne⟩
      · simp at hfalse
      · refine ⟨hv, h0, h1, k, hk2, ?_⟩
        rcases hbin k with hk | hk
        · exact hk
        · exact absurd hk hkne
    · rw [if_neg h0] at h; simp at h
  · intro h0
    unfold Button_Lock
    rw [if_neg (by rw [h0]; decide)]

/-- Witness for C10: a press-hold-release trace (1,1,1,0,0,...) yields
the defined result 1 and satisfies the extracted path conditions; the
all-zero trace (no press) yields no defined result. -/
theorem c10_witness :
    (Button_Lock (fun i => if i ≤ 2 then (1 : Int) else 0) 10 = some 1 ∧
      ((1 : Int) = 1 ∧
        (fun i : Nat => if i ≤ 2 then (1 : Int) else 0) 0 = 1 ∧
        (fun i : Nat => if i ≤ 2 then (1 : Int) else 0) 1 = 1 ∧
        ∃ k, 2 ≤ k ∧
          (fun i : Nat => if i ≤ 2 then (1 : Int) else 0) k = 0)) ∧
    Button_Lock (fun _ => (0 : Int)) 10 = none := by
  have hbinA : ∀ i : Nat,
      (fun i : Nat => if i ≤ 2 then (1 : Int) else 0) i = 0 ∨
        (fun i : Nat => if i ≤ 2 then (1 : Int) else 0) i = 1 := by
    intro i; by_cases h : i ≤ 2 <;> simp [h]
  have hbin0 : ∀ i : Nat, (fun _ : Nat => (0 : Int)) i = 0 ∨
      (fun _ : Nat => (0 : Int)) i = 1 := fun i => Or.inl rfl
  have hsome : Button_Lock (fun i => if i ≤ 2 then (1 : Int) else 0) 10 =
      some 1 := by decide
  refine ⟨⟨hsome, ?_⟩, ?_⟩
  · exact (c10_Button_Lock_paths (fun i => if i ≤ 2 then (1 : Int) else 0) 10
      hbinA).1 1 hsome
  · exact (c10_Button_Lock_paths (fun _ => (0 : Int)) 10 hbin0).2 rfl

end HudCamera
